import Mathlib

/-
  Verification development for fanotify-cli (src/main.rs, src/c_enum.rs, src/flags.rs).

  The Rust program is shallowly embedded below:
  * the two c_enum! instantiations (FanEvents over u64, FanResponse over u32)
    become Lean inductives with the libc numeric values, with from_str / as_ref /
    values translated from the macro expansion in src/c_enum.rs;
  * fanotify_event_metadata mirrors libc::fanotify_event_metadata (x86-64 layout,
    struct size 24 bytes);
  * the record-decoding loop of handle_fanotify (src/main.rs, lines 257-321)
    becomes handle_metadata / handle_fanotify_loop, producing a trace of observable
    actions (path resolution, descriptor closes, emitted entries, failures);
    the side effects of stdout writes are assumed to succeed;
  * handle_command (src/main.rs, lines 125-162) becomes a pure function from the
    next input line and the current line buffer to a result, the updated buffer
    (io::Stdin::read_line appends to the buffer; the program never clears it) and
    a trace of write/close actions;
  * paths are modelled as lists of components, so that Rust's Path::starts_with
    (component-wise prefix test) becomes the startsWith function below.
-/

namespace Fanotify

/-- Size in bytes of libc::fanotify_event_metadata on the target platform
(event_len u32, vers u8, reserved u8, metadata_len u16, mask u64, fd i32, pid i32). -/
def metadataSize : Nat := 24

/-- libc::FANOTIFY_METADATA_VERSION. -/
def FANOTIFY_METADATA_VERSION : Nat := 3

/-- The FanEvents enumeration from the c_enum! block in src/main.rs (repr u64),
in declaration order. -/
inductive FanEvents where
  | FAN_ACCESS
  | FAN_MODIFY
  | FAN_CLOSE_WRITE
  | FAN_CLOSE_NOWRITE
  | FAN_OPEN
  | FAN_Q_OVERFLOW
  | FAN_ACCESS_PERM
  | FAN_OPEN_PERM
  | FAN_ONDIR
  | FAN_EVENT_ON_CHILD
deriving DecidableEq

/-- The libc numeric value of each FanEvents variant (linux/fanotify.h). -/
def FanEvents.val : FanEvents → Nat
  | .FAN_ACCESS => 0x00000001
  | .FAN_MODIFY => 0x00000002
  | .FAN_CLOSE_WRITE => 0x00000008
  | .FAN_CLOSE_NOWRITE => 0x00000010
  | .FAN_OPEN => 0x00000020
  | .FAN_Q_OVERFLOW => 0x00004000
  | .FAN_ACCESS_PERM => 0x00020000
  | .FAN_OPEN_PERM => 0x00010000
  | .FAN_ONDIR => 0x40000000
  | .FAN_EVENT_ON_CHILD => 0x08000000

/-- EnumValues::values() for FanEvents: all variants in declaration order. -/
def FanEvents.values : List FanEvents :=
  [.FAN_ACCESS, .FAN_MODIFY, .FAN_CLOSE_WRITE, .FAN_CLOSE_NOWRITE, .FAN_OPEN,
   .FAN_Q_OVERFLOW, .FAN_ACCESS_PERM, .FAN_OPEN_PERM, .FAN_ONDIR, .FAN_EVENT_ON_CHILD]

/-- AsRef for FanEvents: the stringified variant name (src/c_enum.rs macro expansion). -/
def FanEvents.asRef : FanEvents → String
  | .FAN_ACCESS => "FAN_ACCESS"
  | .FAN_MODIFY => "FAN_MODIFY"
  | .FAN_CLOSE_WRITE => "FAN_CLOSE_WRITE"
  | .FAN_CLOSE_NOWRITE => "FAN_CLOSE_NOWRITE"
  | .FAN_OPEN => "FAN_OPEN"
  | .FAN_Q_OVERFLOW => "FAN_Q_OVERFLOW"
  | .FAN_ACCESS_PERM => "FAN_ACCESS_PERM"
  | .FAN_OPEN_PERM => "FAN_OPEN_PERM"
  | .FAN_ONDIR => "FAN_ONDIR"
  | .FAN_EVENT_ON_CHILD => "FAN_EVENT_ON_CHILD"

/-- FromStr for FanEvents: exact match against the stringified variant names;
the error carries the offending string (CEnumParseError). -/
def FanEvents.fromStr (s : String) : Except String FanEvents :=
  if s = "FAN_ACCESS" then .ok .FAN_ACCESS
  else if s = "FAN_MODIFY" then .ok .FAN_MODIFY
  else if s = "FAN_CLOSE_WRITE" then .ok .FAN_CLOSE_WRITE
  else if s = "FAN_CLOSE_NOWRITE" then .ok .FAN_CLOSE_NOWRITE
  else if s = "FAN_OPEN" then .ok .FAN_OPEN
  else if s = "FAN_Q_OVERFLOW" then .ok .FAN_Q_OVERFLOW
  else if s = "FAN_ACCESS_PERM" then .ok .FAN_ACCESS_PERM
  else if s = "FAN_OPEN_PERM" then .ok .FAN_OPEN_PERM
  else if s = "FAN_ONDIR" then .ok .FAN_ONDIR
  else if s = "FAN_EVENT_ON_CHILD" then .ok .FAN_EVENT_ON_CHILD
  else .error s

/-- The FanResponse enumeration from the c_enum! block in src/main.rs (repr u32). -/
inductive FanResponse where
  | FAN_ALLOW
  | FAN_DENY
deriving DecidableEq

/-- The libc numeric value of each FanResponse variant. -/
def FanResponse.val : FanResponse → Nat
  | .FAN_ALLOW => 0x01
  | .FAN_DENY => 0x02

/-- EnumValues::values() for FanResponse. -/
def FanResponse.values : List FanResponse := [.FAN_ALLOW, .FAN_DENY]

/-- AsRef for FanResponse. -/
def FanResponse.asRef : FanResponse → String
  | .FAN_ALLOW => "FAN_ALLOW"
  | .FAN_DENY => "FAN_DENY"

/-- FromStr for FanResponse: exact match against the stringified variant names. -/
def FanResponse.fromStr (s : String) : Except String FanResponse :=
  if s = "FAN_ALLOW" then .ok .FAN_ALLOW
  else if s = "FAN_DENY" then .ok .FAN_DENY
  else .error s

/-- libc::fanotify_event_metadata, with machine integers widened: event_len (u32),
vers (u8) and mask (u64) as Nat, fd and pid (i32) as Int. -/
structure fanotify_event_metadata where
  event_len : Nat
  vers : Nat
  mask : Nat
  fd : Int
  pid : Int
deriving DecidableEq

/-- The EventEntry struct of src/main.rs. Paths are lists of components
(Rust PathBuf); pid is the u32 stored by the program when metadata.pid >= 0. -/
structure EventEntry where
  mask : Nat
  fd : Option Int
  pid : Option Nat
  path : Option (List String)
deriving DecidableEq

/-- The fields of flags::Opt consumed by handle_fanotify. The source field
named namespace (an Option of a pid) is called ns here because namespace is a
Lean keyword; paths holds the canonicalized watch paths as component lists. -/
structure Opt where
  recursive : Bool
  ns : Option Nat
  paths : List (List String)
deriving DecidableEq

/-- Rust Path::starts_with self base: base is a component-wise prefix of self. -/
def startsWith : List String → List String → Bool
  | _, [] => true
  | [], _ :: _ => false
  | a :: as, b :: bs => a == b && startsWith as bs

/-- Observable actions of the decoding loop, in program order: reading the
/proc/self/fd symlink of a descriptor, closing a descriptor
(File::from_raw_fd dropped), emitting one entry to stdout, failing the whole
read with EINVAL (bad version), or failing it because read_link failed. -/
inductive Action where
  | resolve (fd : Int)
  | closeFd (fd : Int)
  | emit (e : EventEntry)
  | failEINVAL
  | failResolve (fd : Int)
deriving DecidableEq

/-- The per-record body of the decoding loop in handle_fanotify
(src/main.rs lines 271-320), for one metadata record that already passed the
length and version checks. resolve models fs::read_link of /proc/self/fd/(fd):
none means the read_link call fails (which aborts the whole read). -/
def handle_metadata (resolve : Int → Option (List String)) (opt : Opt)
    (m : fanotify_event_metadata) : List Action :=
  if 0 ≤ m.fd then
    match resolve m.fd with
    | none => [Action.resolve m.fd, Action.failResolve m.fd]
    | some path =>
      let closes : List Action :=
        if m.mask &&& FanEvents.val .FAN_OPEN_PERM != 0
            || m.mask &&& FanEvents.val .FAN_ACCESS_PERM != 0 then
          []
        else
          [Action.closeFd m.fd]
      let dropped : Bool :=
        opt.recursive && opt.ns.isNone && opt.paths.any (fun p => !(startsWith path p))
      Action.resolve m.fd :: closes ++
        (if dropped then []
         else [Action.emit
           { mask := m.mask
             fd := some m.fd
             pid := if 0 ≤ m.pid then some m.pid.toNat else none
             path := some path }])
  else
    [Action.emit
      { mask := m.mask
        fd := none
        pid := if 0 ≤ m.pid then some m.pid.toNat else none
        path := none }]

/-- The record-walking loop of handle_fanotify (src/main.rs lines 257-321):
iterates the metadata buffer element by element (fixed stride of one struct),
stops on the length checks, fails the whole read on a version mismatch or a
read_link failure, and subtracts each record's declared event_len from the
remaining-byte counter nread. -/
def handle_fanotify_loop (resolve : Int → Option (List String)) (opt : Opt) :
    List fanotify_event_metadata → Nat → List Action
  | [], _ => []
  | m :: rest, nread =>
    if nread < metadataSize || m.event_len < metadataSize || m.event_len > nread then
      []
    else if m.vers != FANOTIFY_METADATA_VERSION then
      [Action.failEINVAL]
    else
      let acts := handle_metadata resolve opt m
      if 0 ≤ m.fd ∧ resolve m.fd = none then
        acts
      else
        acts ++ handle_fanotify_loop resolve opt rest (nread - m.event_len)

/-- The entries emitted (printed to stdout) along a trace of the decoding loop. -/
def emittedEntries (acts : List Action) : List EventEntry :=
  acts.filterMap (fun a => match a with | Action.emit e => some e | _ => none)

/-- The EventEntry that handle_fanotify builds for a metadata record when the
read succeeds (for a non-negative fd, the path produced by resolve). -/
def toEntry (resolve : Int → Option (List String)) (m : fanotify_event_metadata) :
    EventEntry :=
  { mask := m.mask
    fd := if 0 ≤ m.fd then some m.fd else none
    pid := if 0 ≤ m.pid then some m.pid.toNat else none
    path := if 0 ≤ m.fd then resolve m.fd else none }

/-- Rust char::is_whitespace, restricted to the ASCII whitespace characters
that can occur on the control channel. -/
def isWs (c : Char) : Bool :=
  c == ' ' || c == '\t' || c == '\n' || c == '\r'

/-- str::split with a character predicate: splits at every matching character,
keeping empty substrings between adjacent matches and at the ends. -/
def splitChars (p : Char → Bool) : List Char → List (List Char)
  | [] => [[]]
  | c :: cs =>
    if p c then [] :: splitChars p cs
    else
      match splitChars p cs with
      | t :: ts => (c :: t) :: ts
      | [] => [[c]]

/-- The token stream produced by scan! over a buffer:
buf.split(char::is_whitespace). -/
def splitWs (s : String) : List String :=
  (splitChars isWs s.toList).map (fun l => String.mk l)

/-- Rust i32::from_str: an optional sign followed by at least one ASCII digit,
rejecting values outside the i32 range. -/
def parseI32 (s : String) : Option Int :=
  let core : List Char → Int → Option Int := fun digits sign =>
    if digits.isEmpty then none
    else if digits.all Char.isDigit then
      let v : Nat := digits.foldl (fun a c => a * 10 + (c.toNat - 48)) 0
      let i : Int := sign * (v : Int)
      if -(2 ^ 31) ≤ i ∧ i < 2 ^ 31 then some i else none
    else none
  match s.toList with
  | '+' :: rest => core rest 1
  | '-' :: rest => core rest (-1)
  | l => core l 1

/-- scan!(buf, FanResponse, i32): take the first two whitespace-separated
tokens of the whole buffer and parse them; none when either parse fails
(the _ arm of the match in handle_command). -/
def scanRespFd (b : String) : Option (FanResponse × Int) :=
  let toks := splitWs b
  match (toks[0]?).bind (fun t => (FanResponse.fromStr t).toOption),
        (toks[1]?).bind parseI32 with
  | some resp, some fd => some (resp, fd)
  | _, _ => none

/-- Observable actions of handle_command: writing a libc::fanotify_response
record (response code, fd) to the notification handle, closing a descriptor
(File::from_raw_fd dropped), or logging the invalid-input error message
(the error! call, which carries the whole buffer). -/
inductive CmdAction where
  | writeResp (response : Nat) (fd : Int)
  | closeFd (fd : Int)
  | logInvalid (buf : String)
deriving DecidableEq

/-- The io::Result value returned by handle_command: Ok(()), the
UnexpectedEof error, the InvalidInput error of the parse-failure arm, or the
propagated error of a failed write_all. -/
inductive CmdResult where
  | ok
  | eofErr
  | invalidInput
  | writeErr
deriving DecidableEq

/-- handle_command (src/main.rs lines 125-162). line is the next line
available on stdin (none at end of input); read_line APPENDS it to buf, which
main never clears between calls. writeOk tells whether the write_all of the
response record succeeds. Returns the result, the updated buffer and the
trace of actions. -/
def handle_command (line : Option String) (buf : String) (writeOk : Bool) :
    CmdResult × String × List CmdAction :=
  match line with
  | none => (CmdResult.eofErr, buf, [])
  | some l =>
    let b := buf ++ l
    match scanRespFd b with
    | some (resp, fd) =>
      ((if writeOk then CmdResult.ok else CmdResult.writeErr), b,
        [CmdAction.writeResp (FanResponse.val resp) fd, CmdAction.closeFd fd])
    | none => (CmdResult.invalidInput, b, [CmdAction.logInvalid b])

/-- Whether the event loop in main survives one stdin dispatch: the question
mark operator on handle_command propagates any error, ending the loop (and the
process). -/
def loopContinuesAfterCommand (line : Option String) (buf : String)
    (writeOk : Bool) : Bool :=
  (handle_command line buf writeOk).1 == CmdResult.ok

/-- The stdin-ready steps of the poll loop in main: handle_command is called
once per ready line, threading command_buf (never cleared); the loop stops when
a call returns an error. Writes are assumed to succeed. Returns the final
buffer and the accumulated action trace. -/
def commandSteps : List String → String → String × List CmdAction
  | [], buf => (buf, [])
  | l :: rest, buf =>
    match handle_command (some l) buf true with
    | (CmdResult.ok, b, acts) =>
      let r := commandSteps rest b
      (r.1, acts ++ r.2)
    | (_, b, acts) => (b, acts)

/-- EventEntry::display_field: the Display rendering of the field, or the
dash placeholder when absent. -/
def display_field {T : Type} (toStr : T → String) : Option T → String
  | some x => toStr x
  | none => "-"

/-- The rendered path bytes: the absolute path written by write_to for a
resolved entry (PathBuf's OsStr bytes; components joined by slashes under a
leading slash). -/
def renderPath (p : List String) : String :=
  "/" ++ String.intercalate "/" p

/-- The first tab-separated field built by EventEntry::write_to
(src/main.rs lines 179-188): the names of the declared flags present in the
mask, each followed by a pipe, with the final pipe removed when the
accumulated string is nonempty. -/
def maskField (mask : Nat) : String :=
  let buf : List Char := FanEvents.values.foldl
    (fun acc m =>
      if FanEvents.val m &&& mask != 0 then acc ++ (FanEvents.asRef m).toList ++ ['|']
      else acc)
    []
  String.mk (if buf.length != 0 then buf.dropLast else buf)

/-- EventEntry::write_to (src/main.rs lines 178-204): the full output line
(without the trailing newline added by println!). -/
def write_to (e : EventEntry) : String :=
  maskField e.mask ++ "\t" ++ display_field (fun i : Int => toString i) e.fd ++ "\t"
    ++ display_field (fun n : Nat => toString n) e.pid ++ "\t"
    ++ (match e.path with
        | some p => renderPath p
        | none => "-")

/-- The union of the numeric values of all declared FanEvents flags. -/
def eventsUnion : Nat :=
  FanEvents.values.foldl (fun a m => a ||| FanEvents.val m) 0

/-- Modelled from the spec: the PathFilter emission rule as the spec words it —
an entry with a resolved path is emitted iff its path is a descendant of (or
equal to) AT LEAST ONE configured watched path. Used only to compare against
the filter the code implements in handle_metadata. -/
def specFilterEmits (paths : List (List String)) (path : List String) : Bool :=
  paths.any (fun p => startsWith path p)

/-- The record found at a byte offset of the decode buffer, the buffer being
the list of fixed-size metadata structs: defined when the offset is aligned to
the struct size. Support for the spec-worded cursor semantics below. -/
def getRecordAt (l : List fanotify_event_metadata) (cursor : Nat) :
    Option fanotify_event_metadata :=
  if cursor % metadataSize = 0 then l[cursor / metadataSize]? else none

/-- Modelled from the spec: the RecordDecoder walk with the cursor semantics
the spec states — after each decoded record the cursor advances by that
record's self-declared length (not by a fixed stride). gas bounds the number
of decoded records (instantiate with the list length). Used only to compare
against handle_fanotify_loop, which the code implements. -/
def specAdvanceDecode (resolve : Int → Option (List String)) (opt : Opt)
    (l : List fanotify_event_metadata) : Nat → Nat → Nat → List Action
  | _, _, 0 => []
  | cursor, nread, gas + 1 =>
    if nread < metadataSize then []
    else
      match getRecordAt l cursor with
      | none => []
      | some m =>
        if m.event_len < metadataSize || m.event_len > nread then []
        else if m.vers != FANOTIFY_METADATA_VERSION then [Action.failEINVAL]
        else
          handle_metadata resolve opt m ++
            specAdvanceDecode resolve opt l (cursor + m.event_len) (nread - m.event_len) gas

/-- C1: the claim says a descriptor released by an operator command is closed at
most once and a second well-formed control line never re-executes the first
command. The code violates it: read_line appends to command_buf, which main
never clears, so after lines FAN_ALLOW 7 and FAN_DENY 8 the second call
re-parses the buffer from its start, writes the allow response for descriptor 7
again and closes descriptor 7 a second time. -/
theorem C1_double_close_eval :
    (commandSteps ["FAN_ALLOW 7\n", "FAN_DENY 8\n"] "").2 =
      [CmdAction.writeResp 1 7, CmdAction.closeFd 7,
       CmdAction.writeResp 1 7, CmdAction.closeFd 7] ∧
    ((commandSteps ["FAN_ALLOW 7\n", "FAN_DENY 8\n"] "").2.count (CmdAction.closeFd 7)) = 2 := by
  decide

/-- C9: for every variant of both FlagSet instantiations (FanEvents and
FanResponse), parsing the rendered name yields the same flag back. -/
theorem C9_round_trip :
    (∀ f : FanEvents, FanEvents.fromStr (FanEvents.asRef f) = Except.ok f) ∧
    (∀ f : FanResponse, FanResponse.fromStr (FanResponse.asRef f) = Except.ok f) := by
  refine ⟨fun f => ?_, fun f => ?_⟩ <;> cases f <;> rfl

/-- C8 counterexample: the claim says the line ALLOW 7 writes the allow
response for descriptor 7, but FanResponse's FromStr only accepts the exact
variant names, so ALLOW fails to parse: the handler reports invalid input and
writes nothing to the notification handle. -/
theorem C8_counterexample :
    handle_command (some "ALLOW 7\n") "" true =
      (CmdResult.invalidInput, "ALLOW 7\n", [CmdAction.logInvalid "ALLOW 7\n"]) := by
  decide

/-- C8 amended: with the exact flag name, the line FAN_ALLOW 7 writes the
response record (allow-code 1, descriptor 7) to the notification handle and
then closes descriptor 7, and the close happens whether the write succeeded or
failed; the line bogus reports a parse error and writes nothing. -/
theorem C8_amended_exact_names : ∀ w : Bool,
    handle_command (some "FAN_ALLOW 7\n") "" w =
      ((if w then CmdResult.ok else CmdResult.writeErr), "FAN_ALLOW 7\n",
       [CmdAction.writeResp 1 7, CmdAction.closeFd 7]) ∧
    handle_command (some "bogus\n") "" w =
      (CmdResult.invalidInput, "bogus\n", [CmdAction.logInvalid "bogus\n"]) := by
  intro w
  cases w <;> exact ⟨by decide, by decide⟩

/-- C3 counterexample: the claim says a malformed control line does not
terminate the event loop, but handle_command returns the InvalidInput error on
the parse-failure arm and main propagates it with the question-mark operator,
so the loop does not survive the dispatch. -/
theorem C3_counterexample :
    (handle_command (some "bogus\n") "" true).1 = CmdResult.invalidInput ∧
    loopContinuesAfterCommand (some "bogus\n") "" true = false := by
  decide

/-- C3 amended: for every control line on which scan fails to produce a
response keyword and a descriptor number, handle_command reports the parse
error (the error! log of the buffer) and returns the InvalidInput error, which
main's question-mark operator propagates: the event loop terminates rather
than continuing. -/
theorem C3_amended_parse_error_fatal (l buf : String) (w : Bool)
    (hp : scanRespFd (buf ++ l) = none) :
    handle_command (some l) buf w =
      (CmdResult.invalidInput, buf ++ l, [CmdAction.logInvalid (buf ++ l)]) ∧
    loopContinuesAfterCommand (some l) buf w = false := by
  constructor
  · simp only [handle_command, hp]
  · simp only [loopContinuesAfterCommand, handle_command, hp]
    rfl

/-- Witness for C3_amended_parse_error_fatal at the concrete line bogus. -/
theorem C3_amended_witness :
    handle_command (some "bogus\n") "x " true =
      (CmdResult.invalidInput, "x " ++ "bogus\n", [CmdAction.logInvalid ("x " ++ "bogus\n")]) ∧
    loopContinuesAfterCommand (some "bogus\n") "x " true = false :=
  C3_amended_parse_error_fatal "bogus\n" "x " true (by decide)

/-- C4 counterexample: the claim says the decoder advances its cursor by the
record's self-declared length rather than by a fixed stride. On a buffer whose
first record declares length 48 (twice the struct size) with 72 bytes read,
the code decodes the records at struct offsets 0 and 24 (fixed stride), while
the declared-length cursor semantics the claim states would decode the records
at offsets 0 and 48 — the two disagree on the second entry. -/
theorem C4_counterexample :
    handle_fanotify_loop (fun _ => none) { recursive := false, ns := none, paths := [] }
      [{ event_len := 48, vers := 3, mask := 1, fd := -1, pid := -1 },
       { event_len := 24, vers := 3, mask := 2, fd := -1, pid := -1 },
       { event_len := 24, vers := 3, mask := 8, fd := -1, pid := -1 }] 72 =
      [Action.emit { mask := 1, fd := none, pid := none, path := none },
       Action.emit { mask := 2, fd := none, pid := none, path := none }] ∧
    specAdvanceDecode (fun _ => none) { recursive := false, ns := none, paths := [] }
      [{ event_len := 48, vers := 3, mask := 1, fd := -1, pid := -1 },
       { event_len := 24, vers := 3, mask := 2, fd := -1, pid := -1 },
       { event_len := 24, vers := 3, mask := 8, fd := -1, pid := -1 }] 0 72 3 =
      [Action.emit { mask := 1, fd := none, pid := none, path := none },
       Action.emit { mask := 8, fd := none, pid := none, path := none }] ∧
    ({ mask := 2, fd := none, pid := none, path := none } : EventEntry) ≠
      { mask := 8, fd := none, pid := none, path := none } := by
  refine ⟨by decide, by decide, by decide⟩

/-- C4 amended: for every record that passes the length and version checks (and
whose path resolution does not abort the read), the decoder subtracts the
record's self-declared length from the remaining-byte counter but advances to
the IMMEDIATELY FOLLOWING fixed-size struct in the buffer — a fixed stride of
one metadata struct, not the declared length. -/
theorem C4_amended_stride (resolve : Int → Option (List String)) (opt : Opt)
    (m : fanotify_event_metadata) (rest : List fanotify_event_metadata) (nread : Nat)
    (h1 : ¬ nread < metadataSize) (h2 : ¬ m.event_len < metadataSize)
    (h3 : ¬ m.event_len > nread) (h4 : m.vers = FANOTIFY_METADATA_VERSION)
    (h5 : ¬ (0 ≤ m.fd ∧ resolve m.fd = none)) :
    handle_fanotify_loop resolve opt (m :: rest) nread =
      handle_metadata resolve opt m ++
        handle_fanotify_loop resolve opt rest (nread - m.event_len) := by
  simp only [handle_fanotify_loop, h1, h2, h3, h4, h5]
  simp

/-- Witness for C4_amended_stride at a concrete well-formed record. -/
theorem C4_amended_witness :
    handle_fanotify_loop (fun _ => none) { recursive := false, ns := none, paths := [] }
      [{ event_len := 24, vers := 3, mask := 1, fd := -1, pid := -1 }] 24 =
      handle_metadata (fun _ => none) { recursive := false, ns := none, paths := [] }
        { event_len := 24, vers := 3, mask := 1, fd := -1, pid := -1 } ++
        handle_fanotify_loop (fun _ => none) { recursive := false, ns := none, paths := [] } [] 0 :=
  C4_amended_stride (fun _ => none) { recursive := false, ns := none, paths := [] }
    { event_len := 24, vers := 3, mask := 1, fd := -1, pid := -1 } [] 24
    (by decide) (by decide) (by decide) (by decide) (by decide)

/-- C2 counterexample: the claim says an entry is emitted iff its path is a
descendant of AT LEAST ONE watched path. With watch list a, b the code drops
an entry resolved under a (the filter requires the path to start with EVERY
watched path), although the at-least-one rule would emit it; and with the
empty watch list the code emits everything, although the at-least-one rule over
an empty list would drop everything. -/
theorem C2_counterexample :
    handle_metadata (fun fd => if fd = 5 then some ["a", "x"] else none)
      { recursive := true, ns := none, paths := [["a"], ["b"]] }
      { event_len := 24, vers := 3, mask := 32, fd := 5, pid := 1 } =
      [Action.resolve 5, Action.closeFd 5] ∧
    specFilterEmits [["a"], ["b"]] ["a", "x"] = true ∧
    handle_metadata (fun fd => if fd = 5 then some ["a", "x"] else none)
      { recursive := true, ns := none, paths := [] }
      { event_len := 24, vers := 3, mask := 32, fd := 5, pid := 1 } =
      [Action.resolve 5, Action.closeFd 5,
       Action.emit { mask := 32, fd := some 5, pid := some 1, path := some ["a", "x"] }] ∧
    specFilterEmits [] ["a", "x"] = false := by
  refine ⟨by decide, by decide, by decide, by decide⟩

/-- C2 amended: when recursive filtering is active without a namespace target,
a decoded entry with a resolved path is emitted iff its path is a descendant
of (or equal to) EVERY configured watched path; otherwise it is dropped
without being printed. Over the empty watch list every resolved entry is
emitted. -/
theorem C2_amended_filter (resolve : Int → Option (List String)) (opt : Opt)
    (m : fanotify_event_metadata) (path : List String)
    (hr : opt.recursive = true) (hns : opt.ns = none)
    (hfd : 0 ≤ m.fd) (hres : resolve m.fd = some path) :
    (∃ e, Action.emit e ∈ handle_metadata resolve opt m) ↔
      ∀ p ∈ opt.paths, startsWith path p = true := by
  have hns' : opt.ns.isNone = true := by rw [hns]; rfl
  by_cases hd : (opt.paths.any fun p => !(startsWith path p)) = true
  · refine iff_of_false ?_ ?_
    · rintro ⟨e, he⟩
      by_cases hperm : (m.mask &&& FanEvents.val FanEvents.FAN_OPEN_PERM != 0
          || m.mask &&& FanEvents.val FanEvents.FAN_ACCESS_PERM != 0) = true <;>
        simp [handle_metadata, hfd, hres, hr, hns', hd, hperm] at he
    · intro hall
      obtain ⟨p, hp, hb⟩ := List.any_eq_true.mp hd
      rw [hall p hp] at hb
      simp at hb
  · have hd' : (opt.paths.any fun p => !(startsWith path p)) = false :=
      Bool.eq_false_iff.mpr hd
    refine iff_of_true ?_ ?_
    · refine ⟨{ mask := m.mask
                fd := some m.fd
                pid := if 0 ≤ m.pid then some m.pid.toNat else none
                path := some path }, ?_⟩
      by_cases hperm : (m.mask &&& FanEvents.val FanEvents.FAN_OPEN_PERM != 0
          || m.mask &&& FanEvents.val FanEvents.FAN_ACCESS_PERM != 0) = true <;>
        simp [handle_metadata, hfd, hres, hr, hns', hd', hperm]
    · intro p hp
      by_contra hc
      have hb : (!(startsWith path p)) = true := by
        cases hsw : startsWith path p with
        | false => rfl
        | true => exact absurd hsw hc
      have hcontra : (opt.paths.any fun q => !(startsWith path q)) = true :=
        List.any_eq_true.mpr ⟨p, hp, hb⟩
      rw [hd'] at hcontra
      exact Bool.false_ne_true hcontra

/-- Witness for C2_amended_filter at a concrete single-path configuration. -/
theorem C2_amended_witness :
    (∃ e, Action.emit e ∈ handle_metadata (fun fd => if fd = 5 then some ["a", "x"] else none)
        { recursive := true, ns := none, paths := [["a"]] }
        { event_len := 24, vers := 3, mask := 32, fd := 5, pid := 1 }) ↔
      ∀ p ∈ [["a"]], startsWith ["a", "x"] p = true :=
  C2_amended_filter (fun fd => if fd = 5 then some ["a", "x"] else none)
    { recursive := true, ns := none, paths := [["a"]] }
    { event_len := 24, vers := 3, mask := 32, fd := 5, pid := 1 } ["a", "x"]
    rfl rfl (by decide) (by decide)

/-- Helper: the decoding loop on a record passing every check and whose path
resolution does not fail appends the per-record actions and recurses on the
rest of the buffer with the declared length subtracted from nread. -/
theorem loop_cons (resolve : Int → Option (List String)) (opt : Opt)
    (m : fanotify_event_metadata) (rest : List fanotify_event_metadata) (nread : Nat)
    (h1 : ¬ nread < metadataSize) (h2 : ¬ m.event_len < metadataSize)
    (h3 : ¬ m.event_len > nread) (h4 : m.vers = FANOTIFY_METADATA_VERSION)
    (h5 : ¬ (0 ≤ m.fd ∧ resolve m.fd = none)) :
    handle_fanotify_loop resolve opt (m :: rest) nread =
      handle_metadata resolve opt m ++
        handle_fanotify_loop resolve opt rest (nread - m.event_len) := by
  simp only [handle_fanotify_loop, h1, h2, h3, h4, h5]
  simp

/-- Helper: a close action in the per-record trace always closes that record's
own descriptor, and only when the record's mask carries no permission bit. -/
theorem closeFd_mem_handle_metadata (resolve : Int → Option (List String)) (opt : Opt)
    (m : fanotify_event_metadata) (n : Int)
    (h : Action.closeFd n ∈ handle_metadata resolve opt m) :
    m.fd = n ∧ (m.mask &&& FanEvents.val FanEvents.FAN_OPEN_PERM != 0
      || m.mask &&& FanEvents.val FanEvents.FAN_ACCESS_PERM != 0) = false := by
  by_cases hfd : 0 ≤ m.fd
  · cases hres : resolve m.fd with
    | none => simp [handle_metadata, hfd, hres] at h
    | some path =>
      by_cases hperm : (m.mask &&& FanEvents.val FanEvents.FAN_OPEN_PERM != 0
          || m.mask &&& FanEvents.val FanEvents.FAN_ACCESS_PERM != 0) = true
      · by_cases hdp : (opt.recursive && opt.ns.isNone
            && opt.paths.any fun p => !(startsWith path p)) = true <;>
          simp [handle_metadata, hfd, hres, hperm, hdp] at h
      · have hperm' : (m.mask &&& FanEvents.val FanEvents.FAN_OPEN_PERM != 0
            || m.mask &&& FanEvents.val FanEvents.FAN_ACCESS_PERM != 0) = false :=
          Bool.eq_false_iff.mpr hperm
        by_cases hdp : (opt.recursive && opt.ns.isNone
            && opt.paths.any fun p => !(startsWith path p)) = true <;>
          simp [handle_metadata, hfd, hres, hperm', hdp] at h <;>
          exact ⟨h.symm, hperm'⟩
  · simp [handle_metadata, hfd] at h

/-- Helper: if every record of the batch carrying descriptor n has a
permission bit set, the decoding loop never closes n. -/
theorem closeFd_not_mem_loop (resolve : Int → Option (List String)) (opt : Opt) (n : Int)
    (batch : List fanotify_event_metadata) :
    ∀ nread : Nat,
    (∀ m ∈ batch, m.fd = n →
       (m.mask &&& FanEvents.val FanEvents.FAN_OPEN_PERM != 0
         || m.mask &&& FanEvents.val FanEvents.FAN_ACCESS_PERM != 0) = true) →
    Action.closeFd n ∉ handle_fanotify_loop resolve opt batch nread := by
  induction batch with
  | nil => intro nread _ hmem; simp [handle_fanotify_loop] at hmem
  | cons m rest ih =>
    intro nread hall hmem
    unfold handle_fanotify_loop at hmem
    split at hmem
    · simp at hmem
    · split at hmem
      · simp at hmem
      · split at hmem
        · obtain ⟨heq, hperm⟩ := closeFd_mem_handle_metadata resolve opt m n hmem
          rw [hall m (List.mem_cons_self m rest) heq] at hperm
          simp at hperm
        · rcases List.mem_append.mp hmem with hin | hin
          · obtain ⟨heq, hperm⟩ := closeFd_mem_handle_metadata resolve opt m n hin
            rw [hall m (List.mem_cons_self m rest) heq] at hperm
            simp at hperm
          · exact ih (nread - m.event_len)
              (fun m' hm' => hall m' (List.mem_cons_of_mem m hm')) hin

/-- C5: for every decoded record with a non-negative descriptor and a resolved
path: when no permission-class bit is set, the per-record trace closes the
descriptor immediately after path resolution and before any emission; when a
permission bit is set (and no record of the batch carrying that descriptor
lacks one), the descriptor is never closed anywhere in the decoding of the
read batch. -/
theorem C5_close_discipline (resolve : Int → Option (List String)) (opt : Opt) :
    (∀ (m : fanotify_event_metadata) (path : List String),
       0 ≤ m.fd → resolve m.fd = some path →
       (m.mask &&& FanEvents.val FanEvents.FAN_OPEN_PERM != 0
         || m.mask &&& FanEvents.val FanEvents.FAN_ACCESS_PERM != 0) = false →
       ∃ tail, handle_metadata resolve opt m =
           Action.resolve m.fd :: Action.closeFd m.fd :: tail ∧
         ∀ a ∈ tail, ∃ e, a = Action.emit e) ∧
    (∀ (n : Int) (batch : List fanotify_event_metadata) (nread : Nat),
       (∀ m ∈ batch, m.fd = n →
          (m.mask &&& FanEvents.val FanEvents.FAN_OPEN_PERM != 0
            || m.mask &&& FanEvents.val FanEvents.FAN_ACCESS_PERM != 0) = true) →
       Action.closeFd n ∉ handle_fanotify_loop resolve opt batch nread) := by
  constructor
  · intro m path hfd hres hperm
    by_cases hdp : (opt.recursive && opt.ns.isNone
        && opt.paths.any fun p => !(startsWith path p)) = true
    · exact ⟨[], by simp [handle_metadata, hfd, hres, hperm, hdp], by simp⟩
    · refine ⟨[Action.emit { mask := m.mask
                             fd := some m.fd
                             pid := if 0 ≤ m.pid then some m.pid.toNat else none
                             path := some path }],
        by simp [handle_metadata, hfd, hres, hperm, Bool.eq_false_iff.mpr hdp], ?_⟩
      intro a ha
      rw [List.mem_singleton] at ha
      exact ⟨_, ha⟩
  · exact fun n batch nread hall => closeFd_not_mem_loop resolve opt n batch nread hall

/-- Witness for C5_close_discipline: a non-permission record (mask FAN_ACCESS)
with descriptor 4 is closed right after resolution; a batch whose only record
is a permission event (mask FAN_OPEN_PERM) with descriptor 9 never closes 9. -/
theorem C5_witness :
    (∃ tail, handle_metadata (fun _ => some ["w"])
        { recursive := false, ns := none, paths := [] }
        { event_len := 24, vers := 3, mask := 1, fd := 4, pid := 2 } =
        Action.resolve 4 :: Action.closeFd 4 :: tail ∧
      ∀ a ∈ tail, ∃ e, a = Action.emit e) ∧
    Action.closeFd 9 ∉ handle_fanotify_loop (fun _ => some ["w"])
      { recursive := false, ns := none, paths := [] }
      [{ event_len := 24, vers := 3, mask := 65536, fd := 9, pid := 2 }] 24 := by
  constructor
  · exact (C5_close_discipline (fun _ => some ["w"])
      { recursive := false, ns := none, paths := [] }).1
      { event_len := 24, vers := 3, mask := 1, fd := 4, pid := 2 } ["w"]
      (by decide) rfl (by decide)
  · exact (C5_close_discipline (fun _ => some ["w"])
      { recursive := false, ns := none, paths := [] }).2 9
      [{ event_len := 24, vers := 3, mask := 65536, fd := 9, pid := 2 }] 24 (by decide)

/-- Helper: emitted entries distribute over trace concatenation. -/
theorem emittedEntries_append (a b : List Action) :
    emittedEntries (a ++ b) = emittedEntries a ++ emittedEntries b :=
  List.filterMap_append a b _

/-- Helper: with filtering off and resolution succeeding, the per-record trace
emits exactly the entry built from the record, and contains no failure. -/
theorem handle_metadata_resolved (resolve : Int → Option (List String)) (opt : Opt)
    (m : fanotify_event_metadata)
    (hopt : opt.recursive = false)
    (hres : 0 ≤ m.fd → (resolve m.fd).isSome = true) :
    emittedEntries (handle_metadata resolve opt m) = [toEntry resolve m] ∧
    Action.failEINVAL ∉ handle_metadata resolve opt m ∧
    ∀ fd, Action.failResolve fd ∉ handle_metadata resolve opt m := by
  by_cases hfd : 0 ≤ m.fd
  · cases hp : resolve m.fd with
    | none =>
      have hcontra := hres hfd
      rw [hp] at hcontra
      simp at hcontra
    | some path =>
      by_cases hperm : (m.mask &&& FanEvents.val FanEvents.FAN_OPEN_PERM != 0
          || m.mask &&& FanEvents.val FanEvents.FAN_ACCESS_PERM != 0) = true <;>
        simp [handle_metadata, emittedEntries, toEntry, hfd, hp, hopt, hperm]
  · simp [handle_metadata, emittedEntries, toEntry, hfd]

/-- C6: with filtering inactive, a buffer holding a batch of well-formed
fixed-size records (declared length equal to the struct size, correct version,
resolvable descriptors) followed by an incomplete trailing record (fewer than
metadataSize bytes remaining, or a declared length out of range) decodes to
exactly the entries of the well-formed records, in input order, with no error;
with r = 0 and rest empty this is the exactly-N case. -/
theorem C6_decode_batch (resolve : Int → Option (List String)) (opt : Opt)
    (good rest : List fanotify_event_metadata) (r : Nat)
    (hopt : opt.recursive = false)
    (hg : ∀ m ∈ good, m.event_len = metadataSize ∧ m.vers = FANOTIFY_METADATA_VERSION ∧
        (0 ≤ m.fd → (resolve m.fd).isSome = true))
    (htail : ∀ h, rest.head? = some h →
       (r < metadataSize ∨ h.event_len < metadataSize ∨ h.event_len > r)) :
    emittedEntries (handle_fanotify_loop resolve opt (good ++ rest)
        (metadataSize * good.length + r)) = good.map (toEntry resolve) ∧
    Action.failEINVAL ∉ handle_fanotify_loop resolve opt (good ++ rest)
        (metadataSize * good.length + r) ∧
    ∀ fd, Action.failResolve fd ∉ handle_fanotify_loop resolve opt (good ++ rest)
        (metadataSize * good.length + r) := by
  induction good with
  | nil =>
    simp only [List.nil_append, List.length_nil, Nat.mul_zero, Nat.zero_add, List.map_nil]
    cases rest with
    | nil => simp [handle_fanotify_loop, emittedEntries]
    | cons h t =>
      have hh := htail h rfl
      have hcond : (decide (r < metadataSize) || decide (h.event_len < metadataSize)
          || decide (h.event_len > r)) = true := by
        rcases hh with h1 | h1 | h1 <;> simp [h1]
      simp [handle_fanotify_loop, hcond, emittedEntries]
  | cons m good' ih =>
    obtain ⟨hlen, hver, hresm⟩ := hg m (List.mem_cons_self m good')
    have hg' : ∀ m' ∈ good', m'.event_len = metadataSize ∧
        m'.vers = FANOTIFY_METADATA_VERSION ∧
        (0 ≤ m'.fd → (resolve m'.fd).isSome = true) :=
      fun m' hm' => hg m' (List.mem_cons_of_mem m hm')
    obtain ⟨ih1, ih2, ih3⟩ := ih hg'
    have h1 : ¬ metadataSize * (m :: good').length + r < metadataSize := by
      simp only [List.length_cons, metadataSize]
      omega
    have h2 : ¬ m.event_len < metadataSize := by rw [hlen]; simp
    have h3 : ¬ m.event_len > metadataSize * (m :: good').length + r := by
      rw [hlen]
      simp only [List.length_cons, metadataSize]
      omega
    have h5 : ¬ (0 ≤ m.fd ∧ resolve m.fd = none) := by
      rintro ⟨ha, hb⟩
      have hcontra := hresm ha
      rw [hb] at hcontra
      simp at hcontra
    have harith : metadataSize * (m :: good').length + r - m.event_len =
        metadataSize * good'.length + r := by
      rw [hlen]
      simp only [List.length_cons, metadataSize]
      omega
    have hstep : handle_fanotify_loop resolve opt ((m :: good') ++ rest)
        (metadataSize * (m :: good').length + r) =
        handle_metadata resolve opt m ++ handle_fanotify_loop resolve opt (good' ++ rest)
          (metadataSize * good'.length + r) := by
      rw [List.cons_append, loop_cons resolve opt m (good' ++ rest) _ h1 h2 h3 hver h5, harith]
    obtain ⟨hm1, hm2, hm3⟩ := handle_metadata_resolved resolve opt m hopt hresm
    refine ⟨?_, ?_, ?_⟩
    · rw [hstep, emittedEntries_append, hm1, ih1, List.map_cons, List.singleton_append]
    · rw [hstep]
      intro hmem
      rcases List.mem_append.mp hmem with hin | hin
      · exact hm2 hin
      · exact ih2 hin
    · intro fd
      rw [hstep]
      intro hmem
      rcases List.mem_append.mp hmem with hin | hin
      · exact hm3 fd hin
      · exact ih3 fd hin

/-- Witness for C6_decode_batch: two well-formed queue-overflow style records
(fd -1) followed by a truncated trailing record with 10 bytes remaining. -/
theorem C6_witness :
    emittedEntries (handle_fanotify_loop (fun _ => none)
        { recursive := false, ns := none, paths := [] }
        ([{ event_len := 24, vers := 3, mask := 1, fd := -1, pid := -1 },
          { event_len := 24, vers := 3, mask := 2, fd := -1, pid := -1 }] ++
         [{ event_len := 100, vers := 3, mask := 8, fd := -1, pid := -1 }])
        (metadataSize * 2 + 10)) =
      [{ mask := 1, fd := none, pid := none, path := none },
       { mask := 2, fd := none, pid := none, path := none }] ∧
    Action.failEINVAL ∉ handle_fanotify_loop (fun _ => none)
        { recursive := false, ns := none, paths := [] }
        ([{ event_len := 24, vers := 3, mask := 1, fd := -1, pid := -1 },
          { event_len := 24, vers := 3, mask := 2, fd := -1, pid := -1 }] ++
         [{ event_len := 100, vers := 3, mask := 8, fd := -1, pid := -1 }])
        (metadataSize * 2 + 10) ∧
    Action.failResolve 3 ∉ handle_fanotify_loop (fun _ => none)
        { recursive := false, ns := none, paths := [] }
        ([{ event_len := 24, vers := 3, mask := 1, fd := -1, pid := -1 },
          { event_len := 24, vers := 3, mask := 2, fd := -1, pid := -1 }] ++
         [{ event_len := 100, vers := 3, mask := 8, fd := -1, pid := -1 }])
        (metadataSize * 2 + 10) := by
  have hbig := C6_decode_batch (fun _ => none)
    { recursive := false, ns := none, paths := [] }
    [{ event_len := 24, vers := 3, mask := 1, fd := -1, pid := -1 },
     { event_len := 24, vers := 3, mask := 2, fd := -1, pid := -1 }]
    [{ event_len := 100, vers := 3, mask := 8, fd := -1, pid := -1 }] 10
    rfl (by decide)
    (by
      intro h hh
      injection hh with h2
      subst h2
      decide)
  exact ⟨hbig.1, hbig.2.1, hbig.2.2 3⟩

/-- C7: a record whose length checks pass but whose version field differs from
FANOTIFY_METADATA_VERSION makes the decode of the whole read fail with EINVAL,
whatever records follow; and when the version matches, everything decoded from
the rest of the buffer is part of the whole decode, so a bad version anywhere
reachable fails the whole read. -/
theorem C7_version_fatal (resolve : Int → Option (List String)) (opt : Opt)
    (m : fanotify_event_metadata) (rest : List fanotify_event_metadata) (nread : Nat)
    (h1 : ¬ nread < metadataSize) (h2 : ¬ m.event_len < metadataSize)
    (h3 : ¬ m.event_len > nread) :
    (m.vers ≠ FANOTIFY_METADATA_VERSION →
       handle_fanotify_loop resolve opt (m :: rest) nread = [Action.failEINVAL]) ∧
    (m.vers = FANOTIFY_METADATA_VERSION → ¬ (0 ≤ m.fd ∧ resolve m.fd = none) →
       ∀ a ∈ handle_fanotify_loop resolve opt rest (nread - m.event_len),
         a ∈ handle_fanotify_loop resolve opt (m :: rest) nread) := by
  constructor
  · intro hv
    have hb : (m.vers != FANOTIFY_METADATA_VERSION) = true := by simp [hv]
    simp [handle_fanotify_loop, h1, h2, h3, hb]
  · intro hv h5 a ha
    rw [loop_cons resolve opt m rest nread h1 h2 h3 hv h5]
    exact List.mem_append_right _ ha

/-- Witness for C7_version_fatal: a version-2 leading record fails the whole
read even though a well-formed record follows; with a version-3 leading record
the second record's entry is part of the whole decode. -/
theorem C7_witness :
    handle_fanotify_loop (fun _ => none) { recursive := false, ns := none, paths := [] }
      [{ event_len := 24, vers := 2, mask := 1, fd := -1, pid := -1 },
       { event_len := 24, vers := 3, mask := 2, fd := -1, pid := -1 }] 48 =
      [Action.failEINVAL] ∧
    Action.emit { mask := 2, fd := none, pid := none, path := none } ∈
      handle_fanotify_loop (fun _ => none) { recursive := false, ns := none, paths := [] }
        [{ event_len := 24, vers := 3, mask := 1, fd := -1, pid := -1 },
         { event_len := 24, vers := 3, mask := 2, fd := -1, pid := -1 }] 48 := by
  constructor
  · exact (C7_version_fatal (fun _ => none) { recursive := false, ns := none, paths := [] }
      { event_len := 24, vers := 2, mask := 1, fd := -1, pid := -1 }
      [{ event_len := 24, vers := 3, mask := 2, fd := -1, pid := -1 }] 48
      (by decide) (by decide) (by decide)).1 (by decide)
  · exact (C7_version_fatal (fun _ => none) { recursive := false, ns := none, paths := [] }
      { event_len := 24, vers := 3, mask := 1, fd := -1, pid := -1 }
      [{ event_len := 24, vers := 3, mask := 2, fd := -1, pid := -1 }] 48
      (by decide) (by decide) (by decide)).2 rfl (by decide)
      (Action.emit { mask := 2, fd := none, pid := none, path := none }) (by decide)

/-- Helper: a value already contained in the union of declared flag values
tests a mask identically before and after the mask is restricted to the union. -/
theorem and_union_absorb (v mask : Nat) (hv : v &&& eventsUnion = v) :
    v &&& (mask &&& eventsUnion) = v &&& mask := by
  rw [Nat.and_comm mask eventsUnion, ← Nat.and_assoc, hv]

/-- Helper: the rendered flag-name field depends only on the declared bits of
the mask. -/
theorem maskField_and_union (mask : Nat) :
    maskField (mask &&& eventsUnion) = maskField mask := by
  unfold maskField
  simp only [FanEvents.values, List.foldl_cons, List.foldl_nil, FanEvents.val,
    FanEvents.asRef]
  rw [and_union_absorb 1 mask (by decide), and_union_absorb 2 mask (by decide),
    and_union_absorb 8 mask (by decide), and_union_absorb 16 mask (by decide),
    and_union_absorb 32 mask (by decide), and_union_absorb 16384 mask (by decide),
    and_union_absorb 131072 mask (by decide), and_union_absorb 65536 mask (by decide),
    and_union_absorb 1073741824 mask (by decide),
    and_union_absorb 134217728 mask (by decide)]

/-- C10: mask bits that correspond to no declared event flag are silently
omitted from the rendered flag-name field (the field only depends on the
declared bits); and when no declared flag bit is set the first tab-separated
field of the output line is the empty string, while the absent descriptor,
pid and path fields use the dash placeholder. -/
theorem C10_undeclared_bits (mask : Nat) :
    maskField mask = maskField (mask &&& eventsUnion) ∧
    (mask &&& eventsUnion = 0 →
      maskField mask = "" ∧
      write_to { mask := mask, fd := none, pid := none, path := none } = "\t-\t-\t-") := by
  refine ⟨(maskField_and_union mask).symm, fun h0 => ?_⟩
  have h1 : maskField mask = "" := by
    rw [← maskField_and_union mask, h0]
    decide
  refine ⟨h1, ?_⟩
  simp only [write_to, h1]
  decide

/-- Witness for C10_undeclared_bits at mask 256, a bit corresponding to no
declared flag. -/
theorem C10_witness :
    maskField 256 = maskField (256 &&& eventsUnion) ∧
    (maskField 256 = "" ∧
      write_to { mask := 256, fd := none, pid := none, path := none } = "\t-\t-\t-") :=
  ⟨(C10_undeclared_bits 256).1, (C10_undeclared_bits 256).2 (by decide)⟩

/-- Witness for C8_amended_exact_names at a succeeding write. -/
theorem C8_amended_witness :
    handle_command (some "FAN_ALLOW 7\n") "" true =
      (CmdResult.ok, "FAN_ALLOW 7\n", [CmdAction.writeResp 1 7, CmdAction.closeFd 7]) ∧
    handle_command (some "bogus\n") "" true =
      (CmdResult.invalidInput, "bogus\n", [CmdAction.logInvalid "bogus\n"]) :=
  C8_amended_exact_names true

/-- Witness for C9_round_trip at one variant of each enumeration. -/
theorem C9_round_trip_witness :
    FanEvents.fromStr (FanEvents.asRef FanEvents.FAN_OPEN) = Except.ok FanEvents.FAN_OPEN ∧
    FanResponse.fromStr (FanResponse.asRef FanResponse.FAN_DENY) =
      Except.ok FanResponse.FAN_DENY :=
  ⟨C9_round_trip.1 FanEvents.FAN_OPEN, C9_round_trip.2 FanResponse.FAN_DENY⟩

end Fanotify
